import Mathlib

/-!
Shallow embedding of the hoot (post) CRUD backend:
`src/models/hoot.js` (mongoose schemas) and `src/controllers/hoots.js`
(Express route handlers).  Each handler is modelled as a pure function from
the persistent store (a list of hoot documents) and the authenticated
caller to the new store and the HTTP response.  Ids are natural numbers;
a JavaScript identifier value is either a structured ObjectId or its
string form (`JsId`), so that the two comparison styles of the source
(`ObjectId.equals` versus `toString()` with strict `!==`) can be told
apart.
-/

/-- A JavaScript-level identifier value: a structured mongoose ObjectId
wrapping an identity, or the string (hex) form of that identity. -/
inductive JsId where
  | oid : Nat → JsId
  | str : Nat → JsId
deriving DecidableEq, Repr

/-- The user identity an id denotes, independent of representation. -/
def JsId.val : JsId → Nat
  | .oid n => n
  | .str n => n

/-- JavaScript `toString()`: an ObjectId renders as its hex string; a
string renders as itself. -/
def JsId.toStr : JsId → JsId
  | .oid n => .str n
  | .str n => .str n

/-- JavaScript strict equality `===` between two id values.  Two strings
are equal iff they are the same string; a string is never `===` to an
ObjectId object; two ObjectId objects compare by reference, and the two
sides compared in these handlers always originate from distinct objects
(one loaded from the store, one from the request), so that case is false. -/
def jsStrictEq : JsId → JsId → Bool
  | .str a, .str b => a == b
  | _, _ => false

/-- Mongoose `ObjectId.prototype.equals`: compares by identity value and
accepts either an ObjectId or its string form on the right. -/
def oidEquals (a b : JsId) : Bool := a.val == b.val

/-- Casting a value into an ObjectId schema path (assignment or update):
mongoose converts a string form to the structured ObjectId. -/
def castObjectId (a : JsId) : JsId := .oid a.val

/-- The authenticated user object placed on `req.user` by the external
`verifyToken` middleware. -/
structure User where
  _id : JsId
  username : String
deriving DecidableEq, Repr

/-- An embedded comment subdocument (`commentSchema`):
`text` required, `author` an ObjectId ref, timestamps. -/
structure Comment where
  _id : Nat
  text : String
  author : JsId
  createdAt : Nat
  updatedAt : Nat
deriving DecidableEq, Repr

/-- A hoot document (`hootSchema`): `title`, `text` required strings,
`category` required with a fixed enum, `author` an ObjectId ref,
embedded `comments`, timestamps. -/
structure Hoot where
  _id : Nat
  title : String
  text : String
  category : String
  author : JsId
  comments : List Comment
  createdAt : Nat
  updatedAt : Nat
deriving DecidableEq, Repr

/-- The `enum` list of `hootSchema.category`. -/
def allowedCategories : List String :=
  ["News", "Sports", "Games", "Movies", "Music", "Television"]

/-- Mongoose validation of a comment subdocument: `required: true` on a
string path rejects a missing or empty value. -/
def validComment (c : Comment) : Bool := c.text != ""

/-- Mongoose validation of a hoot document: required non-empty `title` and
`text`, `category` in the enum, and every embedded comment valid. -/
def validHoot (h : Hoot) : Bool :=
  h.title != "" && h.text != "" &&
  allowedCategories.contains h.category && h.comments.all validComment

/-- Errors thrown by the mongoose layer that the handlers catch. -/
inductive MongooseError where
  | validation
deriving DecidableEq, Repr

/-- The `err.message` carried into the 500 response body. -/
def errMessage : MongooseError → String
  | .validation => "Hoot validation failed"

/-- Model of `Hoot.findById`: the first document whose `_id` matches, else null. -/
def findHoot (store : List Hoot) (hootId : Nat) : Option Hoot :=
  store.find? (fun p => p._id == hootId)

/-- Model of `document.save()` persistence: the fetched document replaces the
stored document with the same `_id`. -/
def saveHoot (store : List Hoot) (h : Hoot) : List Hoot :=
  store.map (fun x => if x._id == h._id then h else x)

/-- Client-supplied request body for hoot create and update: each field
may be present or absent, including an `author` field the client may try
to smuggle in. -/
structure ReqBody where
  title : Option String
  text : Option String
  category : Option String
  author : Option JsId
deriving DecidableEq, Repr

/-- Model of `Hoot.create`: builds a new document from the body (the controller has
already overwritten `body.author` with the caller id, passed here as
`author`), validates it, and either persists it or throws
`ValidationError`.  A missing required field and a failing validator both
surface as `ValidationError`. -/
def hootCreate (author : JsId) (body : ReqBody) (newId now : Nat) :
    Except MongooseError Hoot :=
  match body.title, body.text, body.category with
  | some t, some x, some c =>
    let h : Hoot :=
      { _id := newId, title := t, text := x, category := c,
        author := castObjectId author, comments := [],
        createdAt := now, updatedAt := now }
    if validHoot h then .ok h else .error .validation
  | _, _, _ => .error .validation

/-- Response of `POST /hoots`: 201 with the new hoot whose author field is
replaced by the full `req.user` object, or 500 on a caught error. -/
inductive CreateResp where
  | created (h : Hoot) (authorUser : User)
  | err500 (msg : String)
deriving DecidableEq, Repr

def CreateResp.status : CreateResp → Nat
  | .created _ _ => 201
  | .err500 _ => 500

/-- Handler of `POST /hoots` (hoots.js lines 9 to 30):
`req.body.author = req.user._id`, then `Hoot.create(req.body)`, then the
response author is replaced by `req.user`; a thrown error becomes 500 and
nothing is stored. -/
def createHoot (store : List Hoot) (user : User) (body : ReqBody)
    (newId now : Nat) : List Hoot × CreateResp :=
  match hootCreate user._id body newId now with
  | .ok h => (store ++ [h], .created h user)
  | .error e => (store, .err500 (errMessage e))

/-- Insert a hoot into a list sorted by `createdAt` descending. -/
def insertDesc (a : Hoot) : List Hoot → List Hoot
  | [] => [a]
  | b :: l => if b.createdAt < a.createdAt then a :: b :: l
              else b :: insertDesc a l

/-- Model of sorting by `createdAt` descending: the stored hoots ordered newest first. -/
def sortByCreatedAtDesc : List Hoot → List Hoot
  | [] => []
  | a :: l => insertDesc a (sortByCreatedAtDesc l)

/-- Handler of `GET /hoots` (hoots.js lines 35 to 56): all hoots sorted by
`createdAt` descending, status 200.  `populate("author")` only changes how
the author field is rendered and is immaterial to the list contents and
order. -/
def getAllHoots (store : List Hoot) : Nat × List Hoot :=
  (200, sortByCreatedAtDesc store)

/-- Response of `GET /hoots/:hootId`: always 200, with either the found
hoot or JSON `null` when `findById` resolved to null. -/
inductive ShowResp where
  | okHoot (h : Hoot)
  | okNull
deriving DecidableEq, Repr

def ShowResp.status : ShowResp → Nat
  | .okHoot _ => 200
  | .okNull => 200

/-- Handler of `GET /hoots/:hootId` (hoots.js lines 62 to 81):
`findById` then `res.status(200).json(hoot)` with no null check, so an
absent id yields 200 with a null body. -/
def getHootById (store : List Hoot) (hootId : Nat) : ShowResp :=
  match findHoot store hootId with
  | some h => .okHoot h
  | none => .okNull

/-- Model of `findByIdAndUpdate` with the raw body and new true: every field present
in the body overwrites the stored field, the author field included; update
validators are off by default; timestamps refresh `updatedAt`. -/
def applyUpdate (h : Hoot) (body : ReqBody) (now : Nat) : Hoot :=
  { h with
    title := body.title.getD h.title,
    text := body.text.getD h.text,
    category := body.category.getD h.category,
    author := match body.author with
              | some a => castObjectId a
              | none => h.author,
    updatedAt := now }

/-- Response of `PUT /hoots/:hootId`: 200 with the updated hoot (author
replaced by `req.user`), 403 plain text, or 500 on a caught error. -/
inductive UpdateResp where
  | okHoot (h : Hoot) (authorUser : User)
  | forbidden (msg : String)
  | err500 (msg : String)
deriving DecidableEq, Repr

def UpdateResp.status : UpdateResp → Nat
  | .okHoot _ _ => 200
  | .forbidden _ => 403
  | .err500 _ => 500

/-- Handler of `PUT /hoots/:hootId` (hoots.js lines 87 to 122): `findById`
(a null hoot throws reading `author`, caught as 500), then
`hoot.author.equals(req.user._id)` gates a 403, then `findByIdAndUpdate`
with the raw request body. -/
def updateHoot (store : List Hoot) (user : User) (hootId : Nat)
    (body : ReqBody) (now : Nat) : List Hoot × UpdateResp :=
  match findHoot store hootId with
  | none =>
    (store, .err500 "Cannot read properties of null (reading \x27author\x27)")
  | some hoot =>
    if !(oidEquals hoot.author user._id) then
      (store, .forbidden "You\x27re not allowed to do that!")
    else
      let updated := applyUpdate hoot body now
      (saveHoot store updated, .okHoot updated user)

/-- Response of `DELETE /hoots/:hootId`: 200 with the deleted hoot, 403
plain text, or 500 on a caught error. -/
inductive DeleteResp where
  | okHoot (h : Hoot)
  | forbidden (msg : String)
  | err500 (msg : String)
deriving DecidableEq, Repr

def DeleteResp.status : DeleteResp → Nat
  | .okHoot _ => 200
  | .forbidden _ => 403
  | .err500 _ => 500

/-- Handler of `DELETE /hoots/:hootId` (hoots.js lines 128 to 155):
`findById` (null throws, caught as 500), author check gating 403, then
`findByIdAndDelete`. -/
def deleteHoot (store : List Hoot) (user : User) (hootId : Nat) :
    List Hoot × DeleteResp :=
  match findHoot store hootId with
  | none =>
    (store, .err500 "Cannot read properties of null (reading \x27author\x27)")
  | some hoot =>
    if !(oidEquals hoot.author user._id) then
      (store, .forbidden "You\x27re not allowed to do that!")
    else
      (store.filter (fun x => !(x._id == hootId)), .okHoot hoot)

/-- Response of `POST /hoots/:hootId/comments`: 201 with the new comment
whose author field is replaced by the full `req.user` object, or 500. -/
inductive AddCommentResp where
  | created (c : Comment) (authorUser : User)
  | err500 (msg : String)
deriving DecidableEq, Repr

def AddCommentResp.status : AddCommentResp → Nat
  | .created _ _ => 201
  | .err500 _ => 500

/-- Handler of `POST /hoots/:hootId/comments` (hoots.js lines 160 to 187):
`req.body.author = req.user._id`, `findById` (null throws reading
`comments`, caught as 500), push the comment, `save()` (validating the
whole document), then answer 201 with the last comment, its author
replaced by `req.user`. -/
def addComment (store : List Hoot) (user : User) (hootId : Nat)
    (text : String) (newCid now : Nat) : List Hoot × AddCommentResp :=
  match findHoot store hootId with
  | none =>
    (store, .err500 "Cannot read properties of null (reading \x27comments\x27)")
  | some hoot =>
    let c : Comment :=
      { _id := newCid, text := text, author := castObjectId user._id,
        createdAt := now, updatedAt := now }
    let hoot2 := { hoot with comments := hoot.comments ++ [c] }
    if validHoot hoot2 then
      (saveHoot store hoot2, .created c user)
    else
      (store, .err500 (errMessage .validation))

/-- Response of comment update and delete: 200 or 403 with a JSON
`{ message }` body, or 500 with `{ err }`. -/
inductive CommentMsgResp where
  | okMsg (msg : String)
  | forbidden (msg : String)
  | err500 (msg : String)
deriving DecidableEq, Repr

def CommentMsgResp.status : CommentMsgResp → Nat
  | .okMsg _ => 200
  | .forbidden _ => 403
  | .err500 _ => 500

def CommentMsgResp.isForbidden : CommentMsgResp → Bool
  | .forbidden _ => true
  | _ => false

/-- Model of `hoot.comments.id(commentId)`: the subdocument with that `_id`, else
null. -/
def findComment (comments : List Comment) (commentId : Nat) :
    Option Comment :=
  comments.find? (fun c => c._id == commentId)

/-- Handler of `PUT /hoots/:hootId/comments/:commentId` (hoots.js lines
192 to 222): `findById` (null hoot throws reading `comments`, caught as
500), `comments.id` (null comment throws reading `author`, caught as 500),
then the strict string comparison
`comment.author.toString() !== req.user._id` gates a 403; otherwise the
text is overwritten and the document saved (validating it). -/
def updateComment (store : List Hoot) (user : User)
    (hootId commentId : Nat) (newText : String) (now : Nat) :
    List Hoot × CommentMsgResp :=
  match findHoot store hootId with
  | none =>
    (store, .err500 "Cannot read properties of null (reading \x27comments\x27)")
  | some hoot =>
    match findComment hoot.comments commentId with
    | none =>
      (store, .err500 "Cannot read properties of null (reading \x27author\x27)")
    | some comment =>
      if !(jsStrictEq comment.author.toStr user._id) then
        (store, .forbidden "You are not authorized to edit this comment")
      else
        let comment2 := { comment with text := newText, updatedAt := now }
        let comments2 :=
          hoot.comments.map (fun c => if c._id == commentId then comment2 else c)
        let hoot2 := { hoot with comments := comments2 }
        if validHoot hoot2 then
          (saveHoot store hoot2, .okMsg "Comment updated successfully")
        else
          (store, .err500 (errMessage .validation))

/-- Handler of `DELETE /hoots/:hootId/comments/:commentId` (hoots.js lines
227 to 258): same lookups and strict string authorization as comment
update; on success `comments.remove({ _id })` pulls every comment with the
matching `_id` and the document is saved. -/
def deleteComment (store : List Hoot) (user : User)
    (hootId commentId : Nat) : List Hoot × CommentMsgResp :=
  match findHoot store hootId with
  | none =>
    (store, .err500 "Cannot read properties of null (reading \x27comments\x27)")
  | some hoot =>
    match findComment hoot.comments commentId with
    | none =>
      (store, .err500 "Cannot read properties of null (reading \x27author\x27)")
    | some comment =>
      if !(jsStrictEq comment.author.toStr user._id) then
        (store, .forbidden "You are not authorized to delete this comment")
      else
        let comments2 := hoot.comments.filter (fun c => !(c._id == commentId))
        let hoot2 := { hoot with comments := comments2 }
        if validHoot hoot2 then
          (saveHoot store hoot2, .okMsg "Comment deleted successfully")
        else
          (store, .err500 (errMessage .validation))

/-! Helper lemmas about the store operations. -/

theorem findHoot_id_eq {store : List Hoot} {hootId : Nat} {h : Hoot}
    (hh : findHoot store hootId = some h) : h._id = hootId := by
  unfold findHoot at hh
  have h2 : (h._id == hootId) = true :=
    List.find?_some (p := fun (q : Hoot) => q._id == hootId) hh
  exact by simpa using h2

theorem findHoot_saveHoot {store : List Hoot} {hootId : Nat} {h : Hoot}
    (hh : findHoot store hootId = some h) (h2 : Hoot) (hid : h2._id = h._id) :
    findHoot (saveHoot store h2) hootId = some h2 := by
  unfold findHoot saveHoot
  unfold findHoot at hh
  induction store with
  | nil => simp at hh
  | cons x xs ih =>
    by_cases hx : (x._id == hootId) = true
    · rw [List.find?_cons_of_pos (p := fun (q : Hoot) => q._id == hootId) _ hx] at hh
      have hxh : x = h := by injection hh
      subst hxh
      have hhead : (x._id == h2._id) = true := by
        rw [hid]; exact beq_self_eq_true x._id
      simp only [List.map_cons, if_pos hhead]
      have hpos : (h2._id == hootId) = true := by
        rw [hid]; exact hx
      exact List.find?_cons_of_pos (p := fun (q : Hoot) => q._id == hootId) _ hpos
    · rw [List.find?_cons_of_neg (p := fun (q : Hoot) => q._id == hootId) _ hx] at hh
      have hmem : (h._id == hootId) = true :=
        List.find?_some (p := fun (q : Hoot) => q._id == hootId) hh
      have hhead : ¬ (x._id == h2._id) = true := by
        rw [hid]
        intro hcon
        have e1 : x._id = h._id := by simpa using hcon
        have e2 : h._id = hootId := by simpa using hmem
        exact hx (by rw [e1, e2]; exact beq_self_eq_true hootId)
      simp only [List.map_cons, if_neg hhead]
      rw [List.find?_cons_of_neg (p := fun (q : Hoot) => q._id == hootId) _ hx]
      exact ih hh

theorem saveHoot_getElem {store : List Hoot} {i : Nat} {p : Hoot}
    (hp : store[i]? = some p) (h2 : Hoot) (hne : p._id ≠ h2._id) :
    (saveHoot store h2)[i]? = some p := by
  unfold saveHoot
  rw [List.getElem?_map, hp]
  simp only [Option.map_some']
  rw [if_neg]
  simp [hne]

/-! Concrete documents used by counterexamples and witnesses. -/

def c1Comment : Comment :=
  { _id := 1, text := "hi", author := JsId.oid 7,
    createdAt := 0, updatedAt := 0 }

def c1Post : Hoot :=
  { _id := 1, title := "t", text := "x", category := "News",
    author := JsId.oid 7, comments := [c1Comment],
    createdAt := 0, updatedAt := 0 }

def c1Caller : User := { _id := JsId.oid 7, username := "alice" }

def c2Post : Hoot :=
  { _id := 1, title := "t", text := "x", category := "News",
    author := JsId.oid 1, comments := [], createdAt := 0, updatedAt := 0 }

def c2Caller : User := { _id := JsId.str 1, username := "u1" }

def c2Body : ReqBody :=
  { title := none, text := none, category := none,
    author := some (JsId.oid 2) }

/-- C2: the spec says a post's authorId is set once at creation from the
caller and never changes, never accepting a client-supplied value.  The
update handler passes the raw request body to `findByIdAndUpdate`, so the
post's own author, updating their post with a body that smuggles in an
`author` field, overwrites the stored authorId with the client-supplied
value: evaluated at the failing input, the stored post's author becomes
ObjectId 2 although the post was created with author ObjectId 1. -/
theorem C2_update_overwrites_author :
    c2Post.author = JsId.oid 1 ∧
    oidEquals c2Post.author c2Caller._id = true ∧
    findHoot (updateHoot [c2Post] c2Caller 1 c2Body 5).1 1 =
      some { c2Post with author := JsId.oid 2, updatedAt := 5 } := by
  exact ⟨rfl, rfl, rfl⟩

/-- C4 counterexample: with an empty store, `GET /hoots/5` does not fail
with NotFound; the handler answers a success status 200 with a JSON null
body, refuting the claim that a missing id yields NotFound rather than a
success result. -/
theorem C4_missing_post_ok_null_cex :
    getHootById [] 5 = ShowResp.okNull ∧
    (getHootById [] 5).status = 200 := ⟨rfl, rfl⟩

/-- C4 amended: for every id at which no post exists, the show handler
returns a success response, status 200, with a JSON null body (no
NotFound failure occurs). -/
theorem C4_missing_post_returns_200_null (store : List Hoot) (i : Nat)
    (habs : findHoot store i = none) :
    getHootById store i = ShowResp.okNull ∧
    (getHootById store i).status = 200 := by
  unfold getHootById
  rw [habs]
  exact ⟨rfl, rfl⟩

/-- C4 witness: the amended statement evaluated on the empty store. -/
theorem C4_missing_post_witness :
    getHootById [] 7 = ShowResp.okNull ∧
    (getHootById [] 7).status = 200 :=
  C4_missing_post_returns_200_null [] 7 rfl

def c5Caller : User := { _id := JsId.str 7, username := "alice" }

/-- C5 counterexample: deleting comment id 99, absent from the post's
comment list, is not a no-op success: `comments.id(99)` yields null and
reading `author` on it throws a TypeError, which the catch block turns
into a 500 error response.  The comment list is unchanged only because the
handler aborted, not because the delete completed as a no-op. -/
theorem C5_absent_comment_err500_cex :
    findComment c1Post.comments 99 = none ∧
    deleteComment [c1Post] c5Caller 1 99 =
      ([c1Post],
       CommentMsgResp.err500
         "Cannot read properties of null (reading \x27author\x27)") ∧
    (deleteComment [c1Post] c5Caller 1 99).2.status = 500 := ⟨rfl, rfl, rfl⟩

/-- C5 amended: for every existing post and every comment id absent from
its comment list, deleteComment throws a TypeError reading `author` of the
null comment lookup; the catch block answers 500 and the store (the
post's comment list included) is unchanged, rather than the delete
completing as a no-op success. -/
theorem C5_absent_comment_err500_unchanged (store : List Hoot) (user : User)
    (hootId commentId : Nat) (h : Hoot)
    (hh : findHoot store hootId = some h)
    (hc : findComment h.comments commentId = none) :
    deleteComment store user hootId commentId =
      (store,
       CommentMsgResp.err500
         "Cannot read properties of null (reading \x27author\x27)") := by
  unfold deleteComment
  rw [hh]
  dsimp only
  rw [hc]

/-- C5 witness: the amended statement evaluated on a one-post store. -/
theorem C5_absent_comment_witness :
    deleteComment [c1Post] c5Caller 1 99 =
      ([c1Post],
       CommentMsgResp.err500
         "Cannot read properties of null (reading \x27author\x27)") :=
  C5_absent_comment_err500_unchanged [c1Post] c5Caller 1 99 c1Post rfl rfl

/-- C3: for every existing post and caller whose identity differs from the
post's author identity, the post update and delete handlers answer 403
Forbidden before any mutation and the store is unchanged. -/
theorem C3_post_forbidden_unchanged (store : List Hoot) (user : User)
    (hootId : Nat) (body : ReqBody) (now : Nat) (h : Hoot)
    (hh : findHoot store hootId = some h)
    (hne : h.author.val ≠ user._id.val) :
    updateHoot store user hootId body now =
      (store, UpdateResp.forbidden "You\x27re not allowed to do that!") ∧
    (updateHoot store user hootId body now).2.status = 403 ∧
    deleteHoot store user hootId =
      (store, DeleteResp.forbidden "You\x27re not allowed to do that!") ∧
    (deleteHoot store user hootId).2.status = 403 := by
  have hb : oidEquals h.author user._id = false := by
    unfold oidEquals
    exact beq_eq_false_iff_ne.mpr hne
  unfold updateHoot deleteHoot
  rw [hh]
  simp [hb, UpdateResp.status, DeleteResp.status]

/-- C3 witness: a non-author caller (identity 2) on a post authored by
identity 1 gets 403 from both handlers and the store is unchanged. -/
theorem C3_post_forbidden_witness :
    updateHoot [c2Post] { _id := JsId.str 2, username := "eve" } 1 c2Body 5 =
      ([c2Post], UpdateResp.forbidden "You\x27re not allowed to do that!") ∧
    (updateHoot [c2Post] { _id := JsId.str 2, username := "eve" } 1
        c2Body 5).2.status = 403 ∧
    deleteHoot [c2Post] { _id := JsId.str 2, username := "eve" } 1 =
      ([c2Post], DeleteResp.forbidden "You\x27re not allowed to do that!") ∧
    (deleteHoot [c2Post] { _id := JsId.str 2, username := "eve" } 1).2.status
      = 403 :=
  C3_post_forbidden_unchanged [c2Post]
    { _id := JsId.str 2, username := "eve" } 1 c2Body 5 c2Post rfl
    (by decide)

/-- C1 counterexample: the caller is the comment's author, presenting the
same identity value as a structured ObjectId (the comment's stored author
is ObjectId 7 and the caller id is ObjectId 7), yet both comment handlers
answer 403 Forbidden: the source compares
`comment.author.toString() !== req.user._id` with strict equality, and a
string is never strictly equal to a structured id.  This refutes the
claim that the handlers fail with Forbidden exactly when the two ids do
not denote the same user regardless of representation. -/
theorem C1_structured_caller_forbidden_cex :
    c1Caller._id.val = c1Comment.author.val ∧
    (updateComment [c1Post] c1Caller 1 1 "new text" 9).2 =
      CommentMsgResp.forbidden "You are not authorized to edit this comment" ∧
    (deleteComment [c1Post] c1Caller 1 1).2 =
      CommentMsgResp.forbidden
        "You are not authorized to delete this comment" := by
  exact ⟨rfl, rfl, rfl⟩

/-- C1 amended: for every post, comment in the post and caller,
updateComment and deleteComment fail with Forbidden exactly when the
string form of the comment's authorId is not strictly equal (JavaScript
`===`) to the caller's id value as supplied - so a caller id in string
form is authorized iff it spells the author's id, while a structured
caller id is always rejected, even the author's own; whenever the check
rejects, the store (hence the stored comment) is unchanged. -/
theorem C1_comment_forbidden_iff_string_neq (store : List Hoot)
    (user : User) (hootId commentId : Nat) (newText : String) (now : Nat)
    (h : Hoot) (c : Comment)
    (hh : findHoot store hootId = some h)
    (hc : findComment h.comments commentId = some c) :
    ((updateComment store user hootId commentId newText now).2.isForbidden
        = true ↔ jsStrictEq c.author.toStr user._id = false) ∧
    ((deleteComment store user hootId commentId).2.isForbidden = true ↔
      jsStrictEq c.author.toStr user._id = false) ∧
    (jsStrictEq c.author.toStr user._id = false →
      (updateComment store user hootId commentId newText now).1 = store ∧
      (deleteComment store user hootId commentId).1 = store) := by
  unfold updateComment deleteComment
  rw [hh]
  dsimp only
  rw [hc]
  by_cases hs : jsStrictEq c.author.toStr user._id = true
  · simp only [hs, Bool.not_true, if_neg (by simp : ¬ (false = true))]
    refine ⟨?_, ?_, ?_⟩
    · constructor
      · intro hforb
        split at hforb <;> simp [CommentMsgResp.isForbidden] at hforb
      · intro hfalse
        exact Bool.noConfusion hfalse
    · constructor
      · intro hforb
        split at hforb <;> simp [CommentMsgResp.isForbidden] at hforb
      · intro hfalse
        exact Bool.noConfusion hfalse
    · intro hfalse
      exact Bool.noConfusion hfalse
  · have hs2 : jsStrictEq c.author.toStr user._id = false :=
      Bool.eq_false_iff.mpr hs
    simp [hs2, CommentMsgResp.isForbidden]

/-- C1 witness: a caller presenting the string form of a different user's
identity (string 5, the author being 7) is rejected by both handlers with
Forbidden and the store is unchanged. -/
theorem C1_comment_forbidden_witness :
    ((updateComment [c1Post] { _id := JsId.str 5, username := "bob" } 1 1
        "t2" 3).2.isForbidden = true ↔
      jsStrictEq c1Comment.author.toStr (JsId.str 5) = false) ∧
    ((deleteComment [c1Post] { _id := JsId.str 5, username := "bob" }
        1 1).2.isForbidden = true ↔
      jsStrictEq c1Comment.author.toStr (JsId.str 5) = false) ∧
    (jsStrictEq c1Comment.author.toStr (JsId.str 5) = false →
      (updateComment [c1Post] { _id := JsId.str 5, username := "bob" } 1 1
        "t2" 3).1 = [c1Post] ∧
      (deleteComment [c1Post] { _id := JsId.str 5, username := "bob" }
        1 1).1 = [c1Post]) :=
  C1_comment_forbidden_iff_string_neq [c1Post]
    { _id := JsId.str 5, username := "bob" } 1 1 "t2" 3 c1Post c1Comment
    rfl rfl

/-- C6: for every create request whose category is supplied but outside
the fixed enum, or whose required title or text is the empty string, the
mongoose create throws ValidationError and the handler stores nothing,
answering the caught error. -/
theorem C6_create_validation_rejected (store : List Hoot) (user : User)
    (body : ReqBody) (newId now : Nat)
    (hbad : (∃ c, body.category = some c ∧
              allowedCategories.contains c = false) ∨
            body.title = some "" ∨ body.text = some "") :
    hootCreate user._id body newId now =
      Except.error MongooseError.validation ∧
    createHoot store user body newId now =
      (store, CreateResp.err500 (errMessage MongooseError.validation)) := by
  have h1 : hootCreate user._id body newId now =
      Except.error MongooseError.validation := by
    rcases hbad with ⟨c, hcat, hcon⟩ | htitle | htext
    · have hcon2 : c ∉ allowedCategories := by simpa using hcon
      rcases ht : body.title with _ | t <;> rcases hx : body.text with _ | x <;>
        simp [hootCreate, ht, hx, hcat, validHoot, hcon2]
    · rcases hc : body.category with _ | c <;>
        rcases hx : body.text with _ | x <;>
        simp [hootCreate, htitle, hc, hx, validHoot]
    · rcases hc : body.category with _ | c <;>
        rcases ht : body.title with _ | t <;>
        simp [hootCreate, htext, hc, ht, validHoot]
  refine ⟨h1, ?_⟩
  unfold createHoot
  rw [h1]

/-- C6 witness: a create request with category outside the enum is
rejected with ValidationError and the store stays empty. -/
theorem C6_create_validation_witness :
    hootCreate c2Caller._id
      { title := some "t", text := some "x", category := some "Bad",
        author := none } 3 0 = Except.error MongooseError.validation ∧
    createHoot [] c2Caller
      { title := some "t", text := some "x", category := some "Bad",
        author := none } 3 0 =
      ([], CreateResp.err500 (errMessage MongooseError.validation)) :=
  C6_create_validation_rejected [] c2Caller
    { title := some "t", text := some "x", category := some "Bad",
      author := none } 3 0 (Or.inl ⟨"Bad", rfl, by decide⟩)

/-- The ordering maintained by the index handler: earlier entries have a
`createdAt` at least as large as later ones. -/
def hootGE (a b : Hoot) : Prop := b.createdAt ≤ a.createdAt

theorem mem_insertDesc {a x : Hoot} {l : List Hoot} :
    x ∈ insertDesc a l ↔ x = a ∨ x ∈ l := by
  induction l with
  | nil => simp [insertDesc]
  | cons b l ih =>
    unfold insertDesc
    by_cases hb : b.createdAt < a.createdAt
    · rw [if_pos hb]
      simp [List.mem_cons]
    · rw [if_neg hb]
      simp [List.mem_cons, ih]
      tauto

theorem pairwise_insertDesc {a : Hoot} {l : List Hoot}
    (hl : List.Pairwise hootGE l) :
    List.Pairwise hootGE (insertDesc a l) := by
  induction l with
  | nil => simp [insertDesc, List.pairwise_cons]
  | cons b l ih =>
    rcases List.pairwise_cons.mp hl with ⟨hb, hl2⟩
    unfold insertDesc
    by_cases hba : b.createdAt < a.createdAt
    · rw [if_pos hba]
      refine List.pairwise_cons.mpr ⟨?_, hl⟩
      intro x hx
      rcases List.mem_cons.mp hx with rfl | hx
      · exact Nat.le_of_lt hba
      · exact Nat.le_trans (hb x hx) (Nat.le_of_lt hba)
    · rw [if_neg hba]
      refine List.pairwise_cons.mpr ⟨?_, ih hl2⟩
      intro x hx
      rcases mem_insertDesc.mp hx with rfl | hx
      · exact Nat.le_of_not_lt hba
      · exact hb x hx

theorem pairwise_sortByCreatedAtDesc (l : List Hoot) :
    List.Pairwise hootGE (sortByCreatedAtDesc l) := by
  induction l with
  | nil => simp [sortByCreatedAtDesc]
  | cons a l ih => exact pairwise_insertDesc ih

theorem perm_insertDesc (a : Hoot) (l : List Hoot) :
    List.Perm (insertDesc a l) (a :: l) := by
  induction l with
  | nil => exact List.Perm.refl [a]
  | cons b l ih =>
    unfold insertDesc
    by_cases hba : b.createdAt < a.createdAt
    · rw [if_pos hba]
    · rw [if_neg hba]
      exact List.Perm.trans (List.Perm.cons b ih) (List.Perm.swap a b l)

theorem perm_sortByCreatedAtDesc (l : List Hoot) :
    List.Perm (sortByCreatedAtDesc l) l := by
  induction l with
  | nil => exact List.Perm.refl []
  | cons a l ih =>
    show List.Perm (insertDesc a (sortByCreatedAtDesc l)) (a :: l)
    exact List.Perm.trans (perm_insertDesc a (sortByCreatedAtDesc l))
      (List.Perm.cons a ih)

/-- C8: the index handler answers 200 with a permutation of the stored
posts in which, whenever post A at position i was created strictly before
post B at position j (smaller `createdAt`), B appears strictly before A:
j is less than i. -/
theorem C8_getAll_sorted_desc (store : List Hoot) (A B : Hoot) (i j : Nat)
    (hi : i < (getAllHoots store).2.length)
    (hj : j < (getAllHoots store).2.length)
    (hA : (getAllHoots store).2.get ⟨i, hi⟩ = A)
    (hB : (getAllHoots store).2.get ⟨j, hj⟩ = B)
    (hlt : A.createdAt < B.createdAt) :
    (getAllHoots store).1 = 200 ∧
    List.Perm (getAllHoots store).2 store ∧ j < i := by
  refine ⟨rfl, perm_sortByCreatedAtDesc store, ?_⟩
  by_contra hji
  have hij : i ≤ j := Nat.le_of_not_lt hji
  rcases Nat.lt_or_eq_of_le hij with hij2 | hij2
  · have hpw := List.pairwise_iff_get.mp
      (pairwise_sortByCreatedAtDesc store) ⟨i, hi⟩ ⟨j, hj⟩ hij2
    have hba : B.createdAt ≤ A.createdAt := by
      rw [← hA, ← hB]
      exact hpw
    exact Nat.not_le_of_lt hlt hba
  · subst hij2
    rw [hA] at hB
    subst hB
    exact Nat.lt_irrefl _ hlt

def c8PostOld : Hoot :=
  { _id := 1, title := "a", text := "x", category := "News",
    author := JsId.oid 1, comments := [], createdAt := 0, updatedAt := 0 }

def c8PostNew : Hoot :=
  { _id := 2, title := "b", text := "y", category := "Games",
    author := JsId.oid 2, comments := [], createdAt := 5, updatedAt := 5 }

/-- C8 witness: on a store holding an older and a newer post, the index
response is status 200, a permutation of the store, and the newer post's
position 0 precedes the older post's position 1. -/
theorem C8_getAll_sorted_witness :
    (getAllHoots [c8PostOld, c8PostNew]).1 = 200 ∧
    List.Perm (getAllHoots [c8PostOld, c8PostNew]).2
      [c8PostOld, c8PostNew] ∧ (0 : Nat) < 1 :=
  C8_getAll_sorted_desc [c8PostOld, c8PostNew] c8PostOld c8PostNew 1 0
    (by decide) (by decide) (by decide) (by decide) (by decide)

/-- C7: on a post whose comment list is [c1, c2, c3] (pairwise distinct
comment ids where it matters), an authorized delete of c2 stores the post
with comment list exactly [c1, c3], preserving the relative order of the
remainder, and answers the success message. -/
theorem C7_delete_middle_comment (store : List Hoot) (user : User)
    (hootId : Nat) (h : Hoot) (c1 c2 c3 : Comment)
    (hh : findHoot store hootId = some h)
    (hcs : h.comments = [c1, c2, c3])
    (h12 : c1._id ≠ c2._id) (h32 : c3._id ≠ c2._id)
    (hauth : jsStrictEq c2.author.toStr user._id = true)
    (hv : validHoot h = true) :
    findHoot (deleteComment store user hootId c2._id).1 hootId =
      some { h with comments := [c1, c3] } ∧
    (deleteComment store user hootId c2._id).2 =
      CommentMsgResp.okMsg "Comment deleted successfully" := by
  have e1 : (c1._id == c2._id) = false := beq_eq_false_iff_ne.mpr h12
  have e3 : (c3._id == c2._id) = false := beq_eq_false_iff_ne.mpr h32
  have hfc : findComment h.comments c2._id = some c2 := by
    rw [hcs]
    unfold findComment
    rw [List.find?_cons_of_neg (p := fun (q : Comment) => q._id == c2._id)
      _ (by simp [e1])]
    exact List.find?_cons_of_pos (p := fun (q : Comment) => q._id == c2._id)
      _ (by simp)
  have hfilter : h.comments.filter (fun c => !(c._id == c2._id)) =
      [c1, c3] := by
    rw [hcs]
    simp [List.filter, e1, e3]
  have hv2 : validHoot { h with comments := [c1, c3] } = true := by
    revert hv
    simp [validHoot, validComment, hcs]
    tauto
  unfold deleteComment
  rw [hh]
  dsimp only
  rw [hfc]
  dsimp only
  simp only [hauth, Bool.not_true, Bool.false_eq_true, if_false, hfilter,
    hv2, if_true]
  refine ⟨?_, trivial⟩
  exact findHoot_saveHoot hh _ rfl

def c7C1 : Comment :=
  { _id := 1, text := "one", author := JsId.oid 4,
    createdAt := 0, updatedAt := 0 }

def c7C2 : Comment :=
  { _id := 2, text := "two", author := JsId.oid 7,
    createdAt := 1, updatedAt := 1 }

def c7C3 : Comment :=
  { _id := 3, text := "three", author := JsId.oid 9,
    createdAt := 2, updatedAt := 2 }

def c7Post : Hoot :=
  { _id := 1, title := "t", text := "x", category := "News",
    author := JsId.oid 4, comments := [c7C1, c7C2, c7C3],
    createdAt := 0, updatedAt := 0 }

def c7Caller : User := { _id := JsId.str 7, username := "u7" }

/-- C7 witness: deleting the middle comment of a concrete three-comment
post as its author leaves exactly the first and third comment, in order. -/
theorem C7_delete_middle_comment_witness :
    findHoot (deleteComment [c7Post] c7Caller 1 c7C2._id).1 1 =
      some { c7Post with comments := [c7C1, c7C3] } ∧
    (deleteComment [c7Post] c7Caller 1 c7C2._id).2 =
      CommentMsgResp.okMsg "Comment deleted successfully" :=
  C7_delete_middle_comment [c7Post] c7Caller 1 c7Post c7C1 c7C2 c7C3 rfl rfl
    (by decide) (by decide) rfl (by decide)

/-- C9: on an existing (valid) post, adding a comment with non-empty text
succeeds: the stored post's comment list becomes the old list with the
new comment appended as the last element, the response status is 201, and
the response carries the new comment with its author field resolved to
the caller's user object. -/
theorem C9_addComment_appends (store : List Hoot) (user : User)
    (hootId : Nat) (text : String) (newCid now : Nat) (h : Hoot)
    (hh : findHoot store hootId = some h)
    (hv : validHoot h = true) (htext : text ≠ "") :
    addComment store user hootId text newCid now =
      (saveHoot store
        { h with comments := h.comments ++
            [{ _id := newCid, text := text,
               author := castObjectId user._id,
               createdAt := now, updatedAt := now }] },
       AddCommentResp.created
         { _id := newCid, text := text, author := castObjectId user._id,
           createdAt := now, updatedAt := now } user) ∧
    findHoot (addComment store user hootId text newCid now).1 hootId =
      some { h with comments := h.comments ++
        [{ _id := newCid, text := text, author := castObjectId user._id,
           createdAt := now, updatedAt := now }] } ∧
    (addComment store user hootId text newCid now).2.status = 201 := by
  have hv2 : validHoot { h with comments := h.comments ++
      [{ _id := newCid, text := text, author := castObjectId user._id,
         createdAt := now, updatedAt := now }] } = true := by
    revert hv
    simp [validHoot, validComment, List.all_append, htext]
  unfold addComment
  rw [hh]
  dsimp only
  simp only [hv2, if_true, eq_self_iff_true]
  refine ⟨trivial, ?_, rfl⟩
  exact findHoot_saveHoot hh _ rfl

/-- C9 witness: adding the comment "nice post" to a concrete post appends
it as the last comment, answers 201, and resolves the response author to
the caller. -/
theorem C9_addComment_witness :
    addComment [c7Post] c5Caller 1 "nice post" 9 4 =
      (saveHoot [c7Post]
        { c7Post with comments := c7Post.comments ++
            [{ _id := 9, text := "nice post",
               author := castObjectId c5Caller._id,
               createdAt := 4, updatedAt := 4 }] },
       AddCommentResp.created
         { _id := 9, text := "nice post",
           author := castObjectId c5Caller._id,
           createdAt := 4, updatedAt := 4 } c5Caller) ∧
    findHoot (addComment [c7Post] c5Caller 1 "nice post" 9 4).1 1 =
      some { c7Post with comments := c7Post.comments ++
        [{ _id := 9, text := "nice post",
           author := castObjectId c5Caller._id,
           createdAt := 4, updatedAt := 4 }] } ∧
    (addComment [c7Post] c5Caller 1 "nice post" 9 4).2.status = 201 :=
  C9_addComment_appends [c7Post] c5Caller 1 "nice post" 9 4 c7Post rfl
    (by decide) (by decide)

/-- C10: each comment operation touches at most the post named by its
postId: every store entry whose id differs from the addressed postId is
returned unchanged, at its position, by addComment, updateComment and
deleteComment, whatever branch they take. -/
theorem C10_comment_ops_frame (store : List Hoot) (user : User)
    (hootId commentId : Nat) (t1 t2 : String) (cid n1 n2 : Nat)
    (i : Nat) (p : Hoot)
    (hp : store[i]? = some p) (hne : p._id ≠ hootId) :
    (addComment store user hootId t1 cid n1).1[i]? = some p ∧
    (updateComment store user hootId commentId t2 n2).1[i]? = some p ∧
    (deleteComment store user hootId commentId).1[i]? = some p := by
  refine ⟨?_, ?_, ?_⟩
  · unfold addComment
    cases hfh : findHoot store hootId with
    | none => exact hp
    | some h =>
      have hid : h._id = hootId := findHoot_id_eq hfh
      dsimp only
      split
      · exact saveHoot_getElem hp _ (fun hcon => hne (hid ▸ hcon))
      · exact hp
  · unfold updateComment
    cases hfh : findHoot store hootId with
    | none => exact hp
    | some h =>
      have hid : h._id = hootId := findHoot_id_eq hfh
      dsimp only
      cases hfc : findComment h.comments commentId with
      | none => exact hp
      | some c =>
        dsimp only
        split
        · exact hp
        · split
          · exact saveHoot_getElem hp _ (fun hcon => hne (hid ▸ hcon))
          · exact hp
  · unfold deleteComment
    cases hfh : findHoot store hootId with
    | none => exact hp
    | some h =>
      have hid : h._id = hootId := findHoot_id_eq hfh
      dsimp only
      cases hfc : findComment h.comments commentId with
      | none => exact hp
      | some c =>
        dsimp only
        split
        · exact hp
        · split
          · exact saveHoot_getElem hp _ (fun hcon => hne (hid ▸ hcon))
          · exact hp

def c10Other : Hoot :=
  { _id := 5, title := "o", text := "z", category := "Music",
    author := JsId.oid 3, comments := [], createdAt := 9, updatedAt := 9 }

/-- C10 witness: operating on post 1 of a two-post store leaves the other
post, id 5 at position 0, unchanged under all three comment operations. -/
theorem C10_comment_ops_frame_witness :
    (addComment [c10Other, c7Post] c5Caller 1 "hey" 9 4).1[0]? =
      some c10Other ∧
    (updateComment [c10Other, c7Post] c5Caller 1 2 "t2" 4).1[0]? =
      some c10Other ∧
    (deleteComment [c10Other, c7Post] c5Caller 1 2).1[0]? =
      some c10Other :=
  C10_comment_ops_frame [c10Other, c7Post] c5Caller 1 2 "hey" "t2" 9 4 4 0
    c10Other rfl (by decide)
